import Mathlib

/-!
Verification development for the Blossom tutoring-session engine.

The definitions below shallowly embed the code of the repository:

* `update_profile_from_extraction` and its helpers follow the Python
  profile-update logic in `docs/roadmap-v1-full.md` (Profile Update Logic).
* `evaluate_is_correct` follows the MCQ grading line of
  `AIPipeline.evaluate_response` in `mvp_technical_plan.md`.
* `Question`, `QuizResponse`, `QuizMetadata`, `ClientMessage`,
  `quizBlockProps` and `renderOptionClass` follow the TypeScript quiz
  rendering components (`QuizBlock`, the chat page) and the message
  metadata schema of the database schema file.
* A few operations whose implementation is absent from the sources
  (extraction-job trigger guard, the quiz-submission endpoint handler,
  turn failure handling) are modelled from the specification text; each
  such definition says so in its doc comment.

Timestamps are modelled as natural numbers; Python `now()` becomes an
explicit `now : Nat` parameter.
-/

namespace Blossom

/-- Per-topic learning state stored under `LearnerProfile.topics`
(`user_profiles.topics` JSONB structure in `roadmap-v1-full.md`). -/
structure TopicState where
  first_seen : Nat
  last_seen : Nat
  sessions_count : Nat
  comprehension : Option Nat
  quiz_scores : List Bool
  last_quizzed : Option Nat
  notes : String
  deriving DecidableEq, Repr

/-- One entry of `extraction.topics_discussed` (extraction output schema). -/
structure TopicDelta where
  name : String
  is_new : Bool
  comprehension : Option Nat
  notes : String
  deriving DecidableEq, Repr

/-- One entry of `extraction.quiz_results` (extraction output schema). -/
structure QuizResult where
  topic : String
  question_summary : String
  correct : Bool
  attempts : Nat
  notes : String
  deriving DecidableEq, Repr

/-- The structured delta produced by the Extraction Job
(extraction output schema in `roadmap-v1-full.md`). -/
structure Extraction where
  session_summary : String
  topics_discussed : List TopicDelta
  quiz_results : List QuizResult
  learning_style_observations : List String
  open_questions : List String
  suggested_next_topic : Option String
  deriving DecidableEq, Repr

/-- The learner profile (`user_profiles` row), restricted to the fields
touched by `update_profile_from_extraction`.  The topic map is modelled
as a function, matching Python dict key lookup and key-value equality. -/
structure LearnerProfile where
  topics : String → Option TopicState
  recent_sessions : List String
  learning_style_observations : List String
  open_questions : List String
  current_topic : Option String
  last_session_at : Option Nat

/-- Python truthiness of an optional integer (`if topic.comprehension:`):
`None` and `0` are falsy. -/
def pyTruthy : Option Nat → Bool
  | none => false
  | some n => n != 0

/-- One step of the `for topic in extraction.topics_discussed` loop of
`update_profile_from_extraction`: update the existing entry (refresh
`last_seen`, bump `sessions_count`, overwrite `comprehension` only when
the delta's value is truthy) or create a fresh entry. -/
def updateTopic (now : Nat) (topics : String → Option TopicState)
    (t : TopicDelta) : String → Option TopicState :=
  match topics t.name with
  | some ts =>
      fun k => if k = t.name then
        some { ts with
          last_seen := now
          sessions_count := ts.sessions_count + 1
          comprehension :=
            if pyTruthy t.comprehension then t.comprehension
            else ts.comprehension }
      else topics k
  | none =>
      fun k => if k = t.name then
        some { first_seen := now, last_seen := now, sessions_count := 1,
               comprehension := t.comprehension, quiz_scores := [],
               last_quizzed := none, notes := "" }
      else topics k

/-- One step of the `for quiz in extraction.quiz_results` loop: append the
correctness flag and stamp `last_quizzed` when the topic key exists,
otherwise leave the map untouched. -/
def applyQuiz (now : Nat) (topics : String → Option TopicState)
    (q : QuizResult) : String → Option TopicState :=
  match topics q.topic with
  | some ts =>
      fun k => if k = q.topic then
        some { ts with
          quiz_scores := ts.quiz_scores ++ [q.correct]
          last_quizzed := some now }
      else topics k
  | none => topics

/-- The whole `topics_discussed` loop. -/
def applyTopics (now : Nat) (l : List TopicDelta)
    (topics : String → Option TopicState) : String → Option TopicState :=
  l.foldl (updateTopic now) topics

/-- The whole `quiz_results` loop. -/
def applyQuizzes (now : Nat) (l : List QuizResult)
    (topics : String → Option TopicState) : String → Option TopicState :=
  l.foldl (applyQuiz now) topics

/-- The function `update_profile_from_extraction(profile, extraction)` from
`docs/roadmap-v1-full.md`, with `now()` passed explicitly. -/
def update_profile_from_extraction (now : Nat) (profile : LearnerProfile)
    (e : Extraction) : LearnerProfile :=
  { profile with
    recent_sessions := (e.session_summary :: profile.recent_sessions).take 3
    topics := applyQuizzes now e.quiz_results
      (applyTopics now e.topics_discussed profile.topics)
    learning_style_observations :=
      profile.learning_style_observations ++ e.learning_style_observations
    open_questions := e.open_questions
    current_topic := e.suggested_next_topic
    last_session_at := some now }

/-- The topic names a delta touches: topics discussed plus quiz topics. -/
def touched (e : Extraction) : List String :=
  e.topics_discussed.map TopicDelta.name ++ e.quiz_results.map QuizResult.topic

/-- Modelled from the spec: the Extraction Job trigger guard is absent from
the sources (only the `session_ended` trigger description exists).  Per the
spec, the conversation id is the idempotency key: once an extraction is
recorded for a conversation id, a second trigger is a no-op. -/
structure ExtractionJobState where
  profile : LearnerProfile
  extracted : List String

/-- Modelled from the spec: run the Extraction Job for an ended conversation
id.  When the id is already recorded, nothing happens; otherwise the delta
is applied through `update_profile_from_extraction` and the id recorded. -/
def runExtractionJob (now : Nat) (convId : String) (e : Extraction)
    (st : ExtractionJobState) : ExtractionJobState :=
  if convId ∈ st.extracted then st
  else { profile := update_profile_from_extraction now st.profile e
         extracted := convId :: st.extracted }

/-! ## Quiz model

`Question` and `QuizResponse` follow the TypeScript interfaces of the
`QuizBlock` component; the embedded quiz metadata shape follows the
`messages.metadata` comment of the database schema. -/

/-- A quiz question as stored in message metadata and delivered to the
`QuizBlock` component (`interface Question` in the quiz component). -/
structure Question where
  id : String
  text : String
  options : List String
  correct_answer : String
  deriving DecidableEq, Repr

/-- A graded response (`interface QuizResponse` in the quiz component). -/
structure QuizResponse where
  question_id : String
  user_answer : String
  is_correct : Bool
  deriving DecidableEq, Repr

/-- The embedded quiz state from the `messages.metadata` schema comment. -/
structure Quiz where
  questions : List Question
  status : String
  responses : List QuizResponse
  completed_at : Option Nat
  deriving DecidableEq, Repr

/-- One submitted answer, as sent by `QuizBlock.handleSubmit`. -/
structure Answer where
  question_id : String
  user_answer : String
  deriving DecidableEq, Repr

/-- Error taxonomy of the quiz-submission path. -/
inductive SubmitError where
  | Conflict
  | ValidationError
  deriving DecidableEq, Repr

/-- Uppercase fold over the characters of a string: the shallow embedding
of Python `str.upper()` (structural over the character list so that
proofs can evaluate it). -/
def strUpper (s : String) : String :=
  ⟨s.data.map Char.toUpper⟩

/-- Strip leading and trailing whitespace: the shallow embedding of
Python `str.strip()` (structural over the character list). -/
def strTrim (s : String) : String :=
  ⟨((s.data.dropWhile Char.isWhitespace).reverse.dropWhile
      Char.isWhitespace).reverse⟩

/-- The MCQ correctness check of `AIPipeline.evaluate_response` in
`mvp_technical_plan.md`:
`is_correct = user_answer.upper() == question["correct_answer"].upper()`
— note: no trimming. -/
def evaluate_is_correct (question : Question) (user_answer : String) : Bool :=
  strUpper user_answer == strUpper question.correct_answer

/-- The grading rule as worded by the spec, for comparison with the code:
exact match against the correct-answer marker, case-insensitive, with the
submitted answer trimmed of surrounding whitespace. -/
def specGrade (question : Question) (user_answer : String) : Bool :=
  strUpper (strTrim user_answer) == strUpper question.correct_answer

/-- Modelled from the spec: the handler of
`POST /api/messages/:id/quiz-response` is absent from the sources (only the
endpoint is declared).  Per the spec, a submission against a completed quiz
is rejected as a `Conflict`; a submission that does not cover every
question is rejected as a `ValidationError` with no transition; otherwise
every answer is graded (grading taken from `evaluate_is_correct`, which is
in the sources) and the quiz becomes `completed`. -/
def submitQuizResponse (now : Nat) (quiz : Quiz) (answers : List Answer) :
    Except SubmitError Quiz :=
  if quiz.status = "completed" then .error .Conflict
  else if quiz.questions.all
      (fun q => answers.any (fun a => a.question_id == q.id)) then
    .ok { quiz with
      status := "completed"
      responses := quiz.questions.filterMap (fun q =>
        (answers.find? (fun a => a.question_id == q.id)).map (fun a =>
          { question_id := q.id
            user_answer := a.user_answer
            is_correct := evaluate_is_correct q a.user_answer }))
      completed_at := some now }
  else .error .ValidationError

/-- The stored quiz after a submission: an error leaves the stored record
untouched, a success stores the updated quiz. -/
def submitAndStore (now : Nat) (quiz : Quiz) (answers : List Answer) :
    Quiz × Option SubmitError :=
  match submitQuizResponse now quiz answers with
  | .ok q => (q, none)
  | .error e => (quiz, some e)

/-! ## Client-side delivery and rendering

`ClientMessage` and `quizBlockProps` follow the chat page component (the
`Message` interface and the conditional rendering of `QuizBlock`);
`renderOptionClass` follows the option-styling logic inside `QuizBlock`. -/

/-- The quiz metadata carried by a client message (`Message.metadata`
interface of the chat page). -/
structure QuizMetadata where
  mtype : String
  questions : List Question
  status : String
  responses : List QuizResponse
  deriving DecidableEq, Repr

/-- A message as typed on the client (`interface Message`, chat page). -/
structure ClientMessage where
  id : String
  role : String
  content : String
  metadata : Option QuizMetadata
  deriving DecidableEq, Repr

/-- The props handed to `QuizBlock`: questions, status, responses. -/
structure QuizBlockProps where
  messageId : String
  questions : List Question
  status : String
  responses : List QuizResponse
  deriving DecidableEq, Repr

/-- The chat page renders a `QuizBlock` when
`message.metadata?.type === "quiz" && message.metadata.questions`, passing
the metadata fields through (with `status || "pending"` defaulting). -/
def quizBlockProps (m : ClientMessage) : Option QuizBlockProps :=
  match m.metadata with
  | some md =>
      if md.mtype = "quiz" then
        some { messageId := m.id
               questions := md.questions
               status := if md.status = "" then "pending" else md.status
               responses := md.responses }
      else none
  | none => none

/-- The CSS class chosen for one option in `QuizBlock`:
`letter = option.charAt(0)`; when the quiz is completed and a response for
the question exists, the option carrying the correct-answer marker is
highlighted green and a submitted wrong answer red; otherwise only the
user's current selection is styled. -/
def renderOptionClass (isCompleted : Bool) (answers : String → Option String)
    (q : Question) (response : Option QuizResponse) (opt : String) : String :=
  let letter := opt.take 1
  let isSelected := answers q.id == some letter
  let wasSubmitted := (response.map QuizResponse.user_answer) == some letter
  let isCorrectAnswer := q.correct_answer == letter
  if isCompleted && response.isSome then
    if isCorrectAnswer then "border-green-500 bg-green-50 dark:bg-green-900/20"
    else if wasSubmitted && !((response.map QuizResponse.is_correct).getD true) then
      "border-red-500 bg-red-50 dark:bg-red-900/20"
    else "border-zinc-200 dark:border-zinc-700"
  else if isSelected then "border-zinc-900 dark:border-zinc-100"
  else "border-zinc-200 dark:border-zinc-700"

/-! ## Turn pipeline -/

/-- A persisted message of the turn pipeline (`send_message`). -/
structure StoredMessage where
  id : String
  role : String
  content : String
  deriving DecidableEq, Repr

/-- The message store of one conversation. -/
structure ConvStore where
  messages : List StoredMessage
  deriving DecidableEq, Repr

/-- Error taxonomy of the turn path. -/
inductive TurnError where
  | NotFound
  | UpstreamUnavailable
  deriving DecidableEq, Repr

/-- Modelled from the spec: the failure handling around `send_message` is
absent from the sources (the endpoint pseudocode has no error path).  Per
the spec, the inbound user message is persisted before the completion call
and never rolled back; a completion failure is reported as the retryable
`UpstreamUnavailable`; a retry of the same turn does not duplicate the
already-durable user message.  The completion service is modelled as an
optional result (`none` = transient failure). -/
def sendMessageTurn (store : ConvStore) (userMsgId : String)
    (content : String) (completion : Option String) :
    ConvStore × Except TurnError StoredMessage :=
  let store1 :=
    if store.messages.any (fun m => m.id == userMsgId) then store
    else { messages := store.messages ++ [⟨userMsgId, "user", content⟩] }
  match completion with
  | none => (store1, .error .UpstreamUnavailable)
  | some text =>
      let assistant : StoredMessage := ⟨userMsgId ++ ":assistant", "assistant", text⟩
      ({ messages := store1.messages ++ [assistant] }, .ok assistant)

/-- How many stored messages carry a given id. -/
def countId (store : ConvStore) (id : String) : Nat :=
  (store.messages.filter (fun m => m.id == id)).length

/-- A whole sequence of extraction applies, each with its own timestamp. -/
def applySeq (p : LearnerProfile) (seq : List (Nat × Extraction)) :
    LearnerProfile :=
  seq.foldl (fun q te => update_profile_from_extraction te.1 q te.2) p

/-! ## Helper lemmas -/

lemma update_recent_sessions (now : Nat) (p : LearnerProfile) (e : Extraction) :
    (update_profile_from_extraction now p e).recent_sessions =
      (e.session_summary :: p.recent_sessions).take 3 := rfl

lemma applySeq_cons (p : LearnerProfile) (te : Nat × Extraction)
    (seq : List (Nat × Extraction)) :
    applySeq p (te :: seq) =
      applySeq (update_profile_from_extraction te.1 p te.2) seq := rfl

lemma applySeq_length_le (seq : List (Nat × Extraction)) :
    ∀ p : LearnerProfile, seq ≠ [] →
      (applySeq p seq).recent_sessions.length ≤ 3 := by
  induction seq with
  | nil => intro p h; exact absurd rfl h
  | cons te rest ih =>
      intro p _
      rw [applySeq_cons]
      cases rest with
      | nil =>
          simp only [applySeq, List.foldl_nil, update_recent_sessions]
          exact List.length_take_le 3 _
      | cons te2 rest2 => exact ih _ (by simp)

lemma applyQuiz_isSome (now : Nat) (m : String → Option TopicState)
    (q : QuizResult) (k : String) :
    ((applyQuiz now m q) k).isSome = (m k).isSome := by
  unfold applyQuiz
  cases hs : m q.topic with
  | none => rfl
  | some ts =>
      by_cases hk : k = q.topic
      · subst hk; simp [hs]
      · simp [hk]

lemma applyQuiz_none (now : Nat) (m : String → Option TopicState)
    (q : QuizResult) (h : m q.topic = none) : applyQuiz now m q = m := by
  unfold applyQuiz
  rw [h]

lemma applyQuizzes_filter_known (now : Nat) (l : List QuizResult) :
    ∀ (m m0 : String → Option TopicState),
      (∀ k, (m k).isSome = (m0 k).isSome) →
      applyQuizzes now (l.filter (fun q => (m0 q.topic).isSome)) m =
        applyQuizzes now l m := by
  induction l with
  | nil => intro m m0 _; rfl
  | cons q rest ih =>
      intro m m0 hdom
      by_cases hq : (m0 q.topic).isSome
      · rw [List.filter_cons_of_pos (by simpa using hq)]
        show applyQuizzes now (rest.filter _) (applyQuiz now m q) =
          applyQuizzes now rest (applyQuiz now m q)
        exact ih _ m0 (fun k => (applyQuiz_isSome now m q k).trans (hdom k))
      · rw [List.filter_cons_of_neg (by simpa using hq)]
        have hnone : m q.topic = none := by
          have h1 : (m q.topic).isSome = false := by
            rw [hdom q.topic]; simpa using hq
          cases hmq : m q.topic with
          | none => rfl
          | some ts => rw [hmq] at h1; simp at h1
        show applyQuizzes now (rest.filter _) m =
          applyQuizzes now rest (applyQuiz now m q)
        rw [applyQuiz_none now m q hnone]
        exact ih m m0 hdom

lemma updateTopic_ne (now : Nat) (m : String → Option TopicState)
    (t : TopicDelta) (k : String) (h : k ≠ t.name) :
    updateTopic now m t k = m k := by
  unfold updateTopic
  cases hs : m t.name <;> simp [h]

lemma updateTopic_localize (now : Nat) (t : TopicDelta) (k : String)
    {m m' : String → Option TopicState} (h : m k = m' k) :
    updateTopic now m t k = updateTopic now m' t k := by
  by_cases hk : k = t.name
  · subst hk
    simp only [updateTopic]
    rw [← h]
    cases hs : m t.name <;> simp [hs]
  · rw [updateTopic_ne now m t k hk, updateTopic_ne now m' t k hk, h]

lemma applyTopics_localize (now : Nat) (l : List TopicDelta) (k : String) :
    ∀ {m m' : String → Option TopicState}, m k = m' k →
      applyTopics now l m k = applyTopics now l m' k := by
  induction l with
  | nil => intro m m' h; exact h
  | cons t rest ih =>
      intro m m' h
      show applyTopics now rest (updateTopic now m t) k =
        applyTopics now rest (updateTopic now m' t) k
      exact ih (updateTopic_localize now t k h)

lemma applyTopics_notMem (now : Nat) (l : List TopicDelta) (k : String) :
    ∀ m : String → Option TopicState, k ∉ l.map TopicDelta.name →
      applyTopics now l m k = m k := by
  induction l with
  | nil => intro m _; rfl
  | cons t rest ih =>
      intro m h
      rw [List.map_cons, List.mem_cons] at h
      push_neg at h
      show applyTopics now rest (updateTopic now m t) k = m k
      rw [ih _ h.2, updateTopic_ne now m t k h.1]

lemma applyQuiz_ne (now : Nat) (m : String → Option TopicState)
    (q : QuizResult) (k : String) (h : k ≠ q.topic) :
    applyQuiz now m q k = m k := by
  unfold applyQuiz
  cases hs : m q.topic <;> simp [h]

lemma applyQuiz_localize (now : Nat) (q : QuizResult) (k : String)
    {m m' : String → Option TopicState} (h : m k = m' k) :
    applyQuiz now m q k = applyQuiz now m' q k := by
  by_cases hk : k = q.topic
  · subst hk
    simp only [applyQuiz]
    cases hs : m q.topic with
    | none =>
        have hs' : m' q.topic = none := by rw [← h, hs]
        simp [hs, hs']
    | some ts =>
        have hs' : m' q.topic = some ts := by rw [← h, hs]
        simp [hs, hs']
  · rw [applyQuiz_ne now m q k hk, applyQuiz_ne now m' q k hk, h]

lemma applyQuizzes_localize (now : Nat) (l : List QuizResult) (k : String) :
    ∀ {m m' : String → Option TopicState}, m k = m' k →
      applyQuizzes now l m k = applyQuizzes now l m' k := by
  induction l with
  | nil => intro m m' h; exact h
  | cons q rest ih =>
      intro m m' h
      show applyQuizzes now rest (applyQuiz now m q) k =
        applyQuizzes now rest (applyQuiz now m' q) k
      exact ih (applyQuiz_localize now q k h)

lemma applyQuizzes_notMem (now : Nat) (l : List QuizResult) (k : String) :
    ∀ m : String → Option TopicState, k ∉ l.map QuizResult.topic →
      applyQuizzes now l m k = m k := by
  induction l with
  | nil => intro m _; rfl
  | cons q rest ih =>
      intro m h
      rw [List.map_cons, List.mem_cons] at h
      push_neg at h
      show applyQuizzes now rest (applyQuiz now m q) k = m k
      rw [ih _ h.2, applyQuiz_ne now m q k h.1]

/-- The topic map produced by one extraction apply. -/
def topicsAfter (now : Nat) (e : Extraction)
    (m : String → Option TopicState) : String → Option TopicState :=
  applyQuizzes now e.quiz_results (applyTopics now e.topics_discussed m)

lemma update_topics_eq (now : Nat) (p : LearnerProfile) (e : Extraction) :
    (update_profile_from_extraction now p e).topics =
      topicsAfter now e p.topics := rfl

lemma topicsAfter_notTouched (now : Nat) (e : Extraction)
    (m : String → Option TopicState) (k : String) (h : k ∉ touched e) :
    topicsAfter now e m k = m k := by
  rw [touched, List.mem_append] at h
  push_neg at h
  unfold topicsAfter
  rw [applyQuizzes_notMem now _ k _ h.2, applyTopics_notMem now _ k _ h.1]

lemma topicsAfter_localize (now : Nat) (e : Extraction) (k : String)
    {m m' : String → Option TopicState} (h : m k = m' k) :
    topicsAfter now e m k = topicsAfter now e m' k :=
  applyQuizzes_localize now _ k (applyTopics_localize now _ k h)

/-! ## Claim theorems -/

/-- C1: for every learner profile and every extraction delta for an ended
conversation id, running the Extraction Job a second time with the same
conversation id is a no-op: the state (profile included) after the second
run equals the state after the first successful run, because the
conversation id is recorded as the idempotency key. -/
theorem extraction_job_idempotent (now1 now2 : Nat) (convId : String)
    (e e2 : Extraction) (st : ExtractionJobState) :
    runExtractionJob now2 convId e2 (runExtractionJob now1 convId e st) =
      runExtractionJob now1 convId e st := by
  unfold runExtractionJob
  by_cases h : convId ∈ st.extracted
  · simp [h]
  · simp [h]

/-- C8: every extraction apply sets `recent_sessions` to the new session
summary prepended to the old list and truncated to 3 entries (so the
oldest beyond 3 is evicted), and after any nonempty sequence of applies
the list never exceeds length 3. -/
theorem recent_sessions_at_most_three (now : Nat) (p : LearnerProfile)
    (e : Extraction) (seq : List (Nat × Extraction)) :
    (update_profile_from_extraction now p e).recent_sessions =
      (e.session_summary :: p.recent_sessions).take 3 ∧
    (seq ≠ [] → (applySeq p seq).recent_sessions.length ≤ 3) :=
  ⟨update_recent_sessions now p e, applySeq_length_le seq p⟩

theorem recent_sessions_at_most_three_witness :
    (applySeq ⟨fun _ => none, ["a", "b", "c"], [], [], none, none⟩
      [(1, ⟨"s", [], [], [], [], none⟩)]).recent_sessions.length ≤ 3 :=
  (recent_sessions_at_most_three 1
    ⟨fun _ => none, ["a", "b", "c"], [], [], none, none⟩
    ⟨"s", [], [], [], [], none⟩
    [(1, ⟨"s", [], [], [], [], none⟩)]).2 (by simp)

/-- C10: a quiz result whose topic name is not a key of the topic map
after the `topics_discussed` merge is silently discarded: filtering the
delta's quiz results down to those whose topic is a key of the merged map
yields the very same final profile, so the dropped results append no quiz
score and stamp no `last_quizzed`; the update is total, so no error is
raised. -/
theorem quiz_result_unknown_topic_discarded (now : Nat) (p : LearnerProfile)
    (e : Extraction) :
    update_profile_from_extraction now p
      { e with quiz_results :=
          (e.quiz_results.filter (fun q =>
            (applyTopics now e.topics_discussed p.topics q.topic).isSome)) } =
      update_profile_from_extraction now p e := by
  unfold update_profile_from_extraction
  congr 1
  exact applyQuizzes_filter_known now e.quiz_results _ _ (fun k => rfl)

/-- C7: applying two extraction updates whose touched topic sets are
disjoint, in either order, yields the same final topic map. -/
theorem disjoint_extractions_commute (t1 t2 : Nat) (p : LearnerProfile)
    (d1 d2 : Extraction) (h : ∀ x ∈ touched d1, x ∉ touched d2) :
    (update_profile_from_extraction t2
        (update_profile_from_extraction t1 p d1) d2).topics =
      (update_profile_from_extraction t1
        (update_profile_from_extraction t2 p d2) d1).topics := by
  funext k
  rw [update_topics_eq, update_topics_eq, update_topics_eq, update_topics_eq]
  by_cases h1 : k ∈ touched d1
  · have h2 : k ∉ touched d2 := h k h1
    rw [topicsAfter_notTouched t2 d2 _ k h2]
    exact (topicsAfter_localize t1 d1 k
      (topicsAfter_notTouched t2 d2 p.topics k h2)).symm
  · by_cases h2 : k ∈ touched d2
    · rw [topicsAfter_notTouched t1 d1 (topicsAfter t2 d2 p.topics) k h1]
      exact topicsAfter_localize t2 d2 k
        (topicsAfter_notTouched t1 d1 p.topics k h1)
    · rw [topicsAfter_notTouched t2 d2 (topicsAfter t1 d1 p.topics) k h2,
          topicsAfter_notTouched t1 d1 p.topics k h1,
          topicsAfter_notTouched t1 d1 (topicsAfter t2 d2 p.topics) k h1,
          topicsAfter_notTouched t2 d2 p.topics k h2]

theorem disjoint_extractions_commute_witness :
    (update_profile_from_extraction 2
        (update_profile_from_extraction 1
          ⟨fun _ => none, [], [], [], none, none⟩
          ⟨"s1", [⟨"alpha", true, some 3, ""⟩],
            [⟨"alpha", "q", true, 1, ""⟩], [], [], none⟩)
        ⟨"s2", [⟨"beta", true, some 2, ""⟩], [], [], [], none⟩).topics =
      (update_profile_from_extraction 1
        (update_profile_from_extraction 2
          ⟨fun _ => none, [], [], [], none, none⟩
          ⟨"s2", [⟨"beta", true, some 2, ""⟩], [], [], [], none⟩)
        ⟨"s1", [⟨"alpha", true, some 3, ""⟩],
          [⟨"alpha", "q", true, 1, ""⟩], [], [], none⟩).topics :=
  disjoint_extractions_commute 1 2
    ⟨fun _ => none, [], [], [], none, none⟩
    ⟨"s1", [⟨"alpha", true, some 3, ""⟩],
      [⟨"alpha", "q", true, 1, ""⟩], [], [], none⟩
    ⟨"s2", [⟨"beta", true, some 2, ""⟩], [], [], [], none⟩
    (by decide)

/-- C4 counterexample: the update-versus-create decision of
`update_profile_from_extraction` is an exact, case-sensitive key match.
With an existing key `"U-Substitution"` and a delta naming
`"u-substitution"`, the near-identical match notwithstanding, a brand-new
TopicState with `sessions_count = 1` is created and the existing entry is
left untouched — not updated as the claim states. -/
theorem topic_match_case_sensitive_counterexample :
    (update_profile_from_extraction 20
      ⟨fun k => if k = "U-Substitution" then some ⟨10, 10, 1, none, [], none, ""⟩
          else none, [], [], [], none, none⟩
      ⟨"s", [⟨"u-substitution", false, none, ""⟩], [], [], [], none⟩).topics
        "u-substitution" = some ⟨20, 20, 1, none, [], none, ""⟩ ∧
    (update_profile_from_extraction 20
      ⟨fun k => if k = "U-Substitution" then some ⟨10, 10, 1, none, [], none, ""⟩
          else none, [], [], [], none, none⟩
      ⟨"s", [⟨"u-substitution", false, none, ""⟩], [], [], [], none⟩).topics
        "U-Substitution" = some ⟨10, 10, 1, none, [], none, ""⟩ := by
  decide

/-- C4 amended: the Extraction Job's profile update decides
update-versus-create by an exact (case- and whitespace-sensitive) match of
the topic name against the topic-map keys: on an exact match the existing
TopicState is updated (`sessions_count` incremented by one, `last_seen`
refreshed, `comprehension` overwritten only when the delta carries a
truthy value), on no exact match a new TopicState is created with
`sessions_count = 1`, and no other key changes. -/
theorem topic_update_or_create_exact (now : Nat) (p : LearnerProfile)
    (td : TopicDelta) :
    (∀ ts, p.topics td.name = some ts →
      (update_profile_from_extraction now p
        ⟨"", [td], [], [], [], none⟩).topics td.name =
        some { ts with
          last_seen := now
          sessions_count := ts.sessions_count + 1
          comprehension :=
            if pyTruthy td.comprehension then td.comprehension
            else ts.comprehension }) ∧
    (p.topics td.name = none →
      (update_profile_from_extraction now p
        ⟨"", [td], [], [], [], none⟩).topics td.name =
        some ⟨now, now, 1, td.comprehension, [], none, ""⟩) ∧
    (∀ k, k ≠ td.name →
      (update_profile_from_extraction now p
        ⟨"", [td], [], [], [], none⟩).topics k = p.topics k) := by
  have hred : (update_profile_from_extraction now p
      ⟨"", [td], [], [], [], none⟩).topics = updateTopic now p.topics td := rfl
  refine ⟨?_, ?_, ?_⟩
  · intro ts h
    rw [hred]
    unfold updateTopic
    rw [h]
    simp
  · intro h
    rw [hred]
    unfold updateTopic
    rw [h]
    simp
  · intro k hk
    rw [hred]
    exact updateTopic_ne now p.topics td k hk

theorem topic_update_or_create_exact_witness :
    (update_profile_from_extraction 20
      ⟨fun k => if k = "algebra" then some ⟨5, 5, 1, some 2, [], none, ""⟩
          else none, [], [], [], none, none⟩
      ⟨"", [⟨"algebra", false, some 4, ""⟩], [], [], [], none⟩).topics
        "algebra" = some ⟨5, 20, 2, some 4, [], none, ""⟩ := by
  have h := (topic_update_or_create_exact 20
    ⟨fun k => if k = "algebra" then some ⟨5, 5, 1, some 2, [], none, ""⟩
        else none, [], [], [], none, none⟩
    ⟨"algebra", false, some 4, ""⟩).1 ⟨5, 5, 1, some 2, [], none, ""⟩ (by decide)
  simpa using h

/-- C5 counterexample: the MCQ grading of `evaluate_response` compares the
uppercased strings without trimming, so the submitted answer `" A"`
against the marker `"A"` is graded incorrect although the claim's rule
(trim, then compare case-insensitively) calls it correct. -/
theorem grading_not_trimmed_counterexample :
    evaluate_is_correct ⟨"q1", "Which?", ["A) x", "B) y"], "A"⟩ " A" = false ∧
    specGrade ⟨"q1", "Which?", ["A) x", "B) y"], "A"⟩ " A" = true := by
  decide

/-- C5 amended: a submitted answer to a quiz question is graded correct if
and only if it equals the recorded correct-answer marker under
case-insensitive comparison (both sides uppercased) with no whitespace
trimming: the completed quiz records exactly
`a.toUpper == marker.toUpper` as the correctness flag. -/
theorem grading_case_insensitive_untrimmed (now : Nat) (quiz : Quiz)
    (q : Question) (a : String) (hs : quiz.status = "pending")
    (hq : quiz.questions = [q]) :
    submitQuizResponse now quiz [⟨q.id, a⟩] =
      .ok { quiz with
        status := "completed"
        responses := [⟨q.id, a, strUpper a == strUpper q.correct_answer⟩]
        completed_at := some now } := by
  unfold submitQuizResponse
  rw [hs, hq]
  simp [evaluate_is_correct]

theorem grading_case_insensitive_untrimmed_witness :
    submitQuizResponse 7
      ⟨[⟨"q1", "Which?", ["A) x", "B) y"], "A"⟩], "pending", [], none⟩
      [⟨"q1", "a"⟩] =
      .ok ⟨[⟨"q1", "Which?", ["A) x", "B) y"], "A"⟩], "completed",
        [⟨"q1", "a", true⟩], some 7⟩ := by
  have h := grading_case_insensitive_untrimmed 7
    ⟨[⟨"q1", "Which?", ["A) x", "B) y"], "A"⟩], "pending", [], none⟩
    ⟨"q1", "Which?", ["A) x", "B) y"], "A"⟩ "a" rfl rfl
  have hb : (strUpper "a" == strUpper "A") = true := by decide
  rw [hb] at h
  exact h

/-- C2: a quiz transitions from pending to completed at most once — once a
submission has succeeded, any second submission against the stored quiz
fails with `Conflict` and the stored quiz (its Responses included) is
unchanged. -/
theorem completed_quiz_submission_conflict (now1 now2 : Nat)
    (quiz quiz' : Quiz) (a1 a2 : List Answer)
    (h : submitQuizResponse now1 quiz a1 = .ok quiz') :
    submitAndStore now2 quiz' a2 = (quiz', some .Conflict) := by
  have hst : quiz'.status = "completed" := by
    unfold submitQuizResponse at h
    split at h
    · simp at h
    · split at h
      · injection h with h2
        rw [← h2]
      · simp at h
  unfold submitAndStore submitQuizResponse
  rw [hst]
  simp

theorem completed_quiz_submission_conflict_witness :
    submitAndStore 2
      ⟨[⟨"q1", "Which?", ["A) x", "B) y"], "A"⟩], "completed",
        [⟨"q1", "A", true⟩], some 1⟩
      [⟨"q1", "B"⟩] =
      (⟨[⟨"q1", "Which?", ["A) x", "B) y"], "A"⟩], "completed",
        [⟨"q1", "A", true⟩], some 1⟩, some .Conflict) :=
  completed_quiz_submission_conflict 1 2
    ⟨[⟨"q1", "Which?", ["A) x", "B) y"], "A"⟩], "pending", [], none⟩
    ⟨[⟨"q1", "Which?", ["A) x", "B) y"], "A"⟩], "completed",
      [⟨"q1", "A", true⟩], some 1⟩
    [⟨"q1", "A"⟩] [⟨"q1", "B"⟩] rfl

/-- C6: a submission against a pending quiz that leaves some question
unanswered is rejected with an error, the status stays pending and no
responses are recorded: the stored quiz is returned untouched together
with a `ValidationError`. -/
theorem submission_missing_answers_rejected (now : Nat) (quiz : Quiz)
    (answers : List Answer) (hs : quiz.status = "pending")
    (hmiss : ∃ q ∈ quiz.questions, ∀ a ∈ answers, a.question_id ≠ q.id) :
    submitAndStore now quiz answers = (quiz, some .ValidationError) := by
  have hcov : (quiz.questions.all
      (fun q => answers.any (fun a => a.question_id == q.id))) = false := by
    obtain ⟨q, hq, hall⟩ := hmiss
    by_contra hc
    rw [Bool.not_eq_false, List.all_eq_true] at hc
    have hany := hc q hq
    rw [List.any_eq_true] at hany
    obtain ⟨a, ha, hbeq⟩ := hany
    exact hall a ha (by simpa using hbeq)
  unfold submitAndStore submitQuizResponse
  rw [hs, hcov]
  simp

theorem submission_missing_answers_rejected_witness :
    submitAndStore 3
      ⟨[⟨"q1", "t1", ["A) x"], "A"⟩, ⟨"q2", "t2", ["A) y"], "A"⟩],
        "pending", [], none⟩
      [⟨"q1", "A"⟩] =
      (⟨[⟨"q1", "t1", ["A) x"], "A"⟩, ⟨"q2", "t2", ["A) y"], "A"⟩],
        "pending", [], none⟩, some .ValidationError) :=
  submission_missing_answers_rejected 3
    ⟨[⟨"q1", "t1", ["A) x"], "A"⟩, ⟨"q2", "t2", ["A) y"], "A"⟩],
      "pending", [], none⟩
    [⟨"q1", "A"⟩] rfl (by decide)

/-- C3 counterexample: a pending quiz message delivers its questions to
the client rendering with the correct-answer marker included — the
`QuizBlock` props for a pending quiz carry `correct_answer = "A"`, so the
marker is contained in the reader-facing payload before completion. -/
theorem answer_key_in_client_payload :
    ((quizBlockProps ⟨"m1", "assistant", "c",
        some ⟨"quiz", [⟨"q1", "Which?", ["A) x", "B) y"], "A"⟩],
          "pending", []⟩⟩).map
      (fun props => (props.status, props.questions.map Question.correct_answer)))
      = some ("pending", ["A"]) := by
  decide

/-- C3 amended: the client payload of a quiz message does contain the
per-question correct-answer marker (the questions are delivered to the
rendering verbatim), but before completion the rendering never uses it:
with the quiz not completed, every option's rendered class is determined
by the user's current selection alone, independent of `correct_answer`. -/
theorem answer_key_delivered_but_not_rendered :
    (∀ (m : ClientMessage) (md : QuizMetadata), m.metadata = some md →
      md.mtype = "quiz" →
      (quizBlockProps m).map QuizBlockProps.questions = some md.questions) ∧
    (∀ (answers : String → Option String) (q : Question)
        (r : Option QuizResponse) (opt : String),
      renderOptionClass false answers q r opt =
        if answers q.id == some (opt.take 1) then
          "border-zinc-900 dark:border-zinc-100"
        else "border-zinc-200 dark:border-zinc-700") := by
  constructor
  · intro m md hm hq
    unfold quizBlockProps
    rw [hm]
    simp [hq]
  · intro answers q r opt
    simp [renderOptionClass]

theorem answer_key_delivered_but_not_rendered_witness :
    (quizBlockProps ⟨"m1", "assistant", "c",
        some ⟨"quiz", [⟨"q1", "Which?", ["A) x", "B) y"], "A"⟩],
          "pending", []⟩⟩).map QuizBlockProps.questions =
      some [⟨"q1", "Which?", ["A) x", "B) y"], "A"⟩] :=
  answer_key_delivered_but_not_rendered.1
    ⟨"m1", "assistant", "c",
      some ⟨"quiz", [⟨"q1", "Which?", ["A) x", "B) y"], "A"⟩], "pending", []⟩⟩
    ⟨"quiz", [⟨"q1", "Which?", ["A) x", "B) y"], "A"⟩], "pending", []⟩ rfl rfl

/-- C9: when the completion call fails after the inbound user message was
persisted, the turn reports the retryable `UpstreamUnavailable`, the user
message remains stored (exactly one copy, never rolled back), and a retry
of the same turn — whatever the completion then returns — still leaves
exactly one copy of the user message. -/
theorem turn_failure_keeps_user_message (store : ConvStore)
    (id content : String) (c2 : Option String)
    (h : store.messages.any (fun m => m.id == id) = false) :
    (sendMessageTurn store id content none).2 = .error .UpstreamUnavailable ∧
    countId (sendMessageTurn store id content none).1 id = 1 ∧
    countId (sendMessageTurn (sendMessageTurn store id content none).1
      id content c2).1 id = 1 := by
  have hfil : store.messages.filter (fun m => m.id == id) = [] := by
    rw [List.filter_eq_nil_iff]
    intro a ha
    rw [List.any_eq_false] at h
    exact h a ha
  have hne : ((id ++ ":assistant" : String) == id) = false := by
    rw [beq_eq_false_iff_ne]
    intro hcontra
    have hlen := congrArg String.length hcontra
    have h10 : (":assistant" : String).length = 10 := by decide
    rw [String.length_append, h10] at hlen
    omega
  refine ⟨rfl, ?_, ?_⟩
  · simp [sendMessageTurn, h, countId, List.filter_append, hfil]
  · cases c2 with
    | none =>
        simp [sendMessageTurn, h, countId, List.filter_append, hfil]
    | some t =>
        simp [sendMessageTurn, h, countId, List.filter_append, hfil, hne]

theorem turn_failure_keeps_user_message_witness :
    (sendMessageTurn ⟨[]⟩ "m1" "hi" none).2 = .error .UpstreamUnavailable ∧
    countId (sendMessageTurn ⟨[]⟩ "m1" "hi" none).1 "m1" = 1 ∧
    countId (sendMessageTurn (sendMessageTurn ⟨[]⟩ "m1" "hi" none).1
      "m1" "hi" (some "hello")).1 "m1" = 1 :=
  turn_failure_keeps_user_message ⟨[]⟩ "m1" "hi" (some "hello") rfl

end Blossom
